import Mathlib

/-!
Verification of the persistent metadata cache of `cfs3/s3cache.py`
(`PersistentCachedMinio`): a shallow embedding of the SQLite-backed store,
the staleness policy, the eviction loop, the listing merger and the cache
facade, followed by theorems checking the design document's claims.

Modelling conventions:
* Timestamps (`time.time()`, the `cached_at` REAL column, the TTL) are
  integers; `_now()` is passed explicitly as a parameter `now`, frozen for
  the duration of one call.
* The `objects` table is a `List Row`; `INSERT OR REPLACE` deletes the old
  row and appends the new one (row order is only observable through
  `ORDER BY` reads, which sort explicitly).  The `buckets` table is a
  `List String` (only needed for the eviction frame property).
* A serialized JSON column (`metadata`, `tags`) is `Option Mapping`:
  `none` is SQL NULL, `some m` is the text `json.dumps(m)` (always a
  non-empty, hence truthy, string; `json.loads` is its inverse).  The
  write path's `json.dumps(x) if x else None` becomes `dumpsIfTruthy`.
* `last_modified` is stored via `datetime.isoformat` and re-parsed by
  `datetime.fromisoformat`; on texts produced by `isoformat` the parse
  succeeds and is the identity, so the column is just `Option String`.
* Exceptions are `Except String`; the remote MinIO client is a `Remote`
  record of result tables, and each facade operation also returns the
  number of remote `stat_object` calls it made.
* SQLite `ORDER BY key` is lexicographic byte order on UTF-8 text,
  modelled by `charsLe` on the key's characters; `key LIKE 'p%'` is a
  prefix test (`LIKE` wildcard characters inside the prefix are not
  modelled).  `ORDER BY cached_at ASC` puts NULL first, modelled by
  `caKey` into `WithBot Int`.
-/

deriving instance DecidableEq for Except

/-- Mappings carried by the `metadata` and `tags` JSON columns. -/
abbrev Mapping := List (String × String)

/-- Lexicographic byte order on strings as `ORDER BY key` sees them. -/
def charsLe : List Char → List Char → Bool
  | [], _ => true
  | _ :: _, [] => false
  | a :: as, b :: bs =>
    if a.toNat < b.toNat then true
    else if b.toNat < a.toNat then false
    else charsLe as bs

/-- SQLite `key LIKE 'p%'`: the first argument is a character-prefix of the second. -/
def charsStart : List Char → List Char → Bool
  | [], _ => true
  | _ :: _, [] => false
  | a :: as, b :: bs => a == b && charsStart as bs

/-- String order used for the `ORDER BY key` reads. -/
def strLe (a b : String) : Prop := charsLe a.data b.data = true

instance : DecidableRel strLe := fun _ _ => inferInstanceAs (Decidable (_ = true))

/-- One row of the `objects` table. -/
structure Row where
  bucket : String
  key : String
  etag : Option String
  size : Option Int
  lastModified : Option String
  metadata : Option Mapping
  tags : Option Mapping
  cached_at : Option Int
deriving DecidableEq, Repr

/-- The result of `minio.Minio.stat_object`: the fields the cache reads off it. -/
structure Stat where
  etag : Option String
  size : Option Int
  lastModified : Option String
  metadata : Option Mapping
deriving DecidableEq, Repr

/-- A `minio.datatypes.Object`-like value (what `_obj_from_row` rebuilds). -/
structure MObject where
  bucket_name : String
  object_name : String
  last_modified : Option String
  etag : Option String
  size : Option Int
  metadata : Option Mapping
deriving DecidableEq, Repr

/-- The `CachedObject` dataclass returned by every facade read. -/
structure CachedObject where
  obj : Option MObject
  bucket : String
  key : String
  metadata : Option Mapping
  tags : Option Mapping
  cached : Bool
  cached_at : Option Int
  age_seconds : Option Int
  stale : Bool
  source : String
deriving DecidableEq, Repr

/-- The `CacheMode` enum. -/
inductive CacheMode where
  | DEFAULT
  | BYPASS
  | CACHE_ONLY
  | FORCE_REFRESH
deriving DecidableEq, Repr

/-- Constructor-time configuration of `PersistentCachedMinio`: the TTL, the
size cap in megabytes (0 disables eviction), and `fp`, the model of
`os.path.getsize(self.db_path)` measuring the store's on-disk footprint. -/
structure Config where
  ttl : Int
  max_db_size_mb : Int
  fp : List Row → Int

/-- The remote MinIO client: per-argument result tables for each call the
cache issues.  `removeObjectsResult` returns, like `Minio.remove_objects`,
the sequence of per-key delete errors (names of objects whose remote
deletion failed); an `Except.error` is an exception raised mid-iteration. -/
structure Remote where
  statResult : String → String → Except String Stat
  listKeys : String → String → List String
  removeResult : String → String → Except String Unit
  removeObjectsResult : String → List String → Except String (List String)
  copyResult : String → String → String → Except String Unit
  setTagsResult : String → String → Mapping → Except String Unit

/-- Both persisted tables: `buckets(name)` and `objects(...)`. -/
structure DBState where
  buckets : List String
  objects : List Row
deriving Repr

/-- Model of `json.dumps(x) if x else None`: Python truthiness sends both `None` and
the empty mapping to SQL NULL. -/
def dumpsIfTruthy : Option Mapping → Option Mapping
  | none => none
  | some m => if m = [] then none else some m

/-- Predicate of the `WHERE bucket=? AND key=?` clauses. -/
def rowMatches (bucket key : String) (r : Row) : Bool :=
  r.bucket == bucket && r.key == key

/-- Model of `_get_row`: point lookup by primary key. -/
def get_row (st : List Row) (bucket key : String) : Option Row :=
  st.find? (rowMatches bucket key)

/-- Model of `_delete_object_row` (and the DELETE of `INSERT OR REPLACE`). -/
def delete_object_row (st : List Row) (bucket key : String) : List Row :=
  st.filter (fun r => !(rowMatches bucket key r))

/-- Model of `_is_row_stale`: the staleness policy applied to an optional row. -/
def is_row_stale (ttl now : Int) (row : Option Row) : Bool :=
  match row with
  | none => true
  | some r =>
    if ttl ≤ 0 then false
    else
      match r.cached_at with
      | none => true
      | some cached_at => decide (now - cached_at > ttl)

/-- The `age = _now() - cached_at if cached_at else None` expression of
`_rows_to_cached_objects`: note `cached_at = 0` is falsy in Python. -/
def pyAge (now : Int) (cached_at : Option Int) : Option Int :=
  match cached_at with
  | none => none
  | some c => if c = 0 then none else some (now - c)

/-- The inline staleness computation of `_rows_to_cached_objects`:
`stale = True` when `cached_at is None`, else `age > ttl` when
`ttl > 0 and age is not None`, else `False`. -/
def inlineStale (ttl now : Int) (cached_at : Option Int) : Bool :=
  match cached_at with
  | none => true
  | some _ =>
    if 0 < ttl then
      match pyAge now cached_at with
      | none => false
      | some age => decide (age > ttl)
    else false

/-- Model of `_obj_from_row`: rebuild a MinIO `Object` from a stored row. -/
def obj_from_row (r : Row) : MObject :=
  { bucket_name := r.bucket
    object_name := r.key
    last_modified := r.lastModified
    etag := r.etag
    size := r.size
    metadata := r.metadata }

/-- Model of `_rows_to_cached_objects` on a single row: the cached-record view. -/
def rows_to_cached_object (ttl now : Int) (r : Row) : CachedObject :=
  { obj := some (obj_from_row r)
    bucket := r.bucket
    key := r.key
    metadata := r.metadata
    tags := r.tags
    cached := true
    cached_at := r.cached_at
    age_seconds := pyAge now r.cached_at
    stale := inlineStale ttl now r.cached_at
    source := "cache" }

/-- Model of `_rows_to_cached_objects` on a row list. -/
def rows_to_cached_objects (ttl now : Int) (rows : List Row) : List CachedObject :=
  rows.map (rows_to_cached_object ttl now)

/-- Model of `ORDER BY cached_at ASC`: SQLite sorts NULL before every value. -/
def caKey : Option Int → WithBot Int
  | none => ⊥
  | some c => (c : WithBot Int)

/-- Row order of the eviction query `ORDER BY cached_at ASC`. -/
def rowLE (a b : Row) : Prop := caKey a.cached_at ≤ caKey b.cached_at

instance : DecidableRel rowLE := fun a b =>
  inferInstanceAs (Decidable (caKey a.cached_at ≤ caKey b.cached_at))

instance : IsTotal Row rowLE := ⟨fun a b => le_total (caKey a.cached_at) (caKey b.cached_at)⟩

instance : IsTrans Row rowLE := ⟨fun _ _ _ h1 h2 => le_trans h1 h2⟩

/-- Model of `SELECT bucket, key FROM objects ORDER BY cached_at ASC LIMIT 100`. -/
def oldestBatch (st : List Row) : List Row :=
  (List.insertionSort rowLE st).take 100

/-- The `executemany` of `DELETE FROM objects WHERE bucket=? AND key=?` over a batch. -/
def deleteBatch (st : List Row) (batch : List Row) : List Row :=
  st.filter (fun r => !(batch.any (fun q => rowMatches q.bucket q.key r)))

/-- Model of `limit_bytes = int(self.max_db_size_mb * 1024 * 1024)`. -/
def limitBytes (cfg : Config) : Int := cfg.max_db_size_mb * 1024 * 1024

/-- The eviction loop of `_enforce_db_size_limit`: while the footprint
exceeds the limit, delete the batch of 100 globally oldest rows; stop when
under the limit or when the batch query returns nothing. -/
def evictLoop (cfg : Config) (st : List Row) : List Row :=
  if cfg.fp st ≤ limitBytes cfg then st
  else
    match h : oldestBatch st with
    | [] => st
    | b :: bs => evictLoop cfg (deleteBatch st (b :: bs))
termination_by st.length
decreasing_by
  apply List.length_filter_lt_length_iff_exists.mpr
  refine ⟨b, (List.perm_insertionSort rowLE st).mem_iff.mp
    (List.mem_of_mem_take (h ▸ List.mem_cons_self b bs)), ?_⟩
  simp [rowMatches]

/-- Model of `_enforce_db_size_limit` run against both tables: it only ever issues
DELETEs on `objects`.  (The initial `os.path.getsize` check is the first
test of the loop; an `OSError` there, which makes it a no-op, is not
modelled.) -/
def enforce_db_size_limit (cfg : Config) (db : DBState) : DBState :=
  { db with objects := evictLoop cfg db.objects }

/-- The guard `if self.max_db_size_mb and self.max_db_size_mb > 0` wrapped
around the eviction call inside the write helpers. -/
def maybeEvict (cfg : Config) (st : List Row) : List Row :=
  if 0 < cfg.max_db_size_mb then evictLoop cfg st else st

/-- Model of `_write_object_row`: `INSERT OR REPLACE` with `cached_at = _now()`,
serializing `metadata`/`tags` through Python truthiness, then the guarded
eviction check. -/
def write_object_row (cfg : Config) (st : List Row) (bucket key : String)
    (etag : Option String) (size : Option Int) (lastModified : Option String)
    (metadata tags : Option Mapping) (now : Int) : List Row :=
  maybeEvict cfg (delete_object_row st bucket key ++
    [{ bucket := bucket, key := key, etag := etag, size := size,
       lastModified := lastModified, metadata := dumpsIfTruthy metadata,
       tags := dumpsIfTruthy tags, cached_at := some now }])

/-- Model of `_update_tags_row`: `UPDATE objects SET tags=?, cached_at=? WHERE
bucket=? AND key=?` (a plain UPDATE: rows are modified in place, none are
inserted), with `json.dumps(tags)` written unconditionally, then the
guarded eviction check. -/
def update_tags_row (cfg : Config) (st : List Row) (bucket key : String)
    (tags : Mapping) (now : Int) : List Row :=
  maybeEvict cfg (st.map (fun r =>
    if rowMatches bucket key r then { r with tags := some tags, cached_at := some now } else r))

/-- The sentinel miss result (`obj=None, cached=False, source='none'`). -/
def missCachedObject (bucket key : String) : CachedObject :=
  { obj := none
    bucket := bucket
    key := key
    metadata := none
    tags := none
    cached := false
    cached_at := none
    age_seconds := none
    stale := true
    source := "none" }

/-- The fresh result built after a successful remote `stat_object`
(`source='s3'`, `age_seconds=0.0`, `tags=None`). -/
def freshCachedObject (bucket key : String) (stat : Stat) (now : Int) : CachedObject :=
  { obj := some { bucket_name := bucket, object_name := key,
                  last_modified := stat.lastModified, etag := stat.etag,
                  size := stat.size, metadata := stat.metadata }
    bucket := bucket
    key := key
    metadata := stat.metadata
    tags := none
    cached := true
    cached_at := some now
    age_seconds := some 0
    stale := false
    source := "s3" }

/-- The cached-serve guard of `stat_object`/`list_objects` for a found row:
`row and cache_mode != BYPASS`, then `cache_mode == DEFAULT and not stale`
(so precisely `DEFAULT` with a fresh row). -/
def servesCached (cfg : Config) (now : Int) (mode : CacheMode) (r : Row) : Bool :=
  !(mode == CacheMode.BYPASS) && mode == CacheMode.DEFAULT
    && !(is_row_stale cfg.ttl now (some r))

/-- Model of `stat_object`: returns (result, store, number of remote stat calls). -/
def stat_object (cfg : Config) (rem : Remote) (now : Int) (st : List Row)
    (bucket key : String) (mode : CacheMode) :
    Except String CachedObject × List Row × Nat :=
  if mode = CacheMode.CACHE_ONLY then
    match get_row st bucket key with
    | none => (.ok (missCachedObject bucket key), st, 0)
    | some r => (.ok (rows_to_cached_object cfg.ttl now r), st, 0)
  else
    match get_row st bucket key with
    | some r =>
      if servesCached cfg now mode r then
        (.ok (rows_to_cached_object cfg.ttl now r), st, 0)
      else
        match rem.statResult bucket key with
        | .error _ => (.ok (rows_to_cached_object cfg.ttl now r), st, 1)
        | .ok stat =>
          (.ok (freshCachedObject bucket key stat now),
           write_object_row cfg st bucket key stat.etag stat.size
             stat.lastModified stat.metadata none now, 1)
    | none =>
      match rem.statResult bucket key with
      | .error e => (.error e, st, 1)
      | .ok stat =>
        (.ok (freshCachedObject bucket key stat now),
         write_object_row cfg st bucket key stat.etag stat.size
           stat.lastModified stat.metadata none now, 1)

/-- Rows of the bucket that match `key LIKE 'pfx%'`. -/
def matchingRows (st : List Row) (bucket pfx : String) : List Row :=
  st.filter (fun r => r.bucket == bucket && charsStart pfx.data r.key.data)

/-- Row order of the `ORDER BY key` listing reads. -/
def keyLE (a b : Row) : Prop := strLe a.key b.key

instance : DecidableRel keyLE := fun a b => inferInstanceAs (Decidable (strLe a.key b.key))

/-- Model of `SELECT * FROM objects WHERE bucket=? AND key LIKE ? ORDER BY key`. -/
def sortByKey (rows : List Row) : List Row :=
  List.insertionSort keyLE rows

/-- Model of `_list_cached_keys_for_prefix`. -/
def list_cached_keys_for_pfx (st : List Row) (bucket pfx : String) : List String :=
  (sortByKey (matchingRows st bucket pfx)).map (fun r => r.key)

/-- The limit test `if limit is not None and count >= limit` of the merge loop. -/
def limitReached (limit : Option Nat) (count : Nat) : Bool :=
  match limit with
  | none => false
  | some n => decide (count ≥ n)

/-- The merge loop of `list_objects`: stream the remote listing in order,
skip keys already seen, serve `DEFAULT`-fresh rows from the store, stat and
cache everything else (skipping keys whose remote stat raises), and stop as
soon as `limit` results have been yielded.  Returns (yielded results, final
store, number of remote stat calls). -/
def mergeLoop (cfg : Config) (rem : Remote) (now : Int) (bucket : String)
    (st : List Row) (seen : List String) (count : Nat) (limit : Option Nat)
    (mode : CacheMode) (calls : Nat) :
    List String → List CachedObject × List Row × Nat
  | [] => ([], st, calls)
  | key :: rest =>
    if seen.contains key then
      mergeLoop cfg rem now bucket st seen count limit mode calls rest
    else
      match get_row st bucket key with
      | some r =>
        if servesCached cfg now mode r then
          let co := rows_to_cached_object cfg.ttl now r
          if limitReached limit (count + 1) then ([co], st, calls)
          else
            let out := mergeLoop cfg rem now bucket st (key :: seen) (count + 1) limit mode calls rest
            (co :: out.1, out.2)
        else
          match rem.statResult bucket key with
          | .error _ =>
            mergeLoop cfg rem now bucket st (key :: seen) count limit mode (calls + 1) rest
          | .ok stat =>
            let st2 := write_object_row cfg st bucket key stat.etag stat.size
              stat.lastModified stat.metadata none now
            let co := freshCachedObject bucket key stat now
            if limitReached limit (count + 1) then ([co], st2, calls + 1)
            else
              let out := mergeLoop cfg rem now bucket st2 (key :: seen) (count + 1) limit mode (calls + 1) rest
              (co :: out.1, out.2)
      | none =>
        match rem.statResult bucket key with
        | .error _ =>
          mergeLoop cfg rem now bucket st (key :: seen) count limit mode (calls + 1) rest
        | .ok stat =>
          let st2 := write_object_row cfg st bucket key stat.etag stat.size
            stat.lastModified stat.metadata none now
          let co := freshCachedObject bucket key stat now
          if limitReached limit (count + 1) then ([co], st2, calls + 1)
          else
            let out := mergeLoop cfg rem now bucket st2 (key :: seen) (count + 1) limit mode (calls + 1) rest
            (co :: out.1, out.2)

/-- Model of `list_objects`: the CACHE_ONLY branch (note `rows[:limit] if limit else
rows`: a limit of 0 is falsy and yields everything), the DEFAULT fast path
(`limit is not None and len(cached_keys) >= limit and cache_mode ==
DEFAULT`), and otherwise the merge loop over the remote listing. -/
def list_objects (cfg : Config) (rem : Remote) (now : Int) (st : List Row)
    (bucket pfx : String) (limit : Option Nat) (mode : CacheMode) :
    List CachedObject × List Row × Nat :=
  if mode = CacheMode.CACHE_ONLY then
    let rows := sortByKey (matchingRows st bucket pfx)
    let rows2 :=
      match limit with
      | none => rows
      | some n => if n = 0 then rows else rows.take n
    (rows_to_cached_objects cfg.ttl now rows2, st, 0)
  else
    match limit with
    | some n =>
      if n ≤ (list_cached_keys_for_pfx st bucket pfx).length ∧ mode = CacheMode.DEFAULT then
        (rows_to_cached_objects cfg.ttl now ((sortByKey (matchingRows st bucket pfx)).take n),
         st, 0)
      else
        mergeLoop cfg rem now bucket st [] 0 (some n) mode 0 (rem.listKeys bucket pfx)
    | none => mergeLoop cfg rem now bucket st [] 0 none mode 0 (rem.listKeys bucket pfx)

/-- Model of `remove_object`: remote delete first; the cache row is deleted only
after the remote call returns, a raised exception propagating with the
store untouched. -/
def remove_object (rem : Remote) (st : List Row) (bucket key : String) :
    Except String Unit × List Row :=
  match rem.removeResult bucket key with
  | .error e => (.error e, st)
  | .ok r => (.ok r, delete_object_row st bucket key)

/-- Model of `remove_objects`: drain the remote error iterator (an exception while
draining propagates with the store untouched); afterwards delete the cache
row of every requested name, including names whose remote deletion was
reported failed in the returned error list. -/
def remove_objects (rem : Remote) (st : List Row) (bucket : String)
    (deleteList : List String) : Except String (List String) × List Row :=
  match rem.removeObjectsResult bucket deleteList with
  | .error e => (.error e, st)
  | .ok errs =>
    (.ok errs, deleteList.foldl (fun s name => delete_object_row s bucket name) st)

/-- Model of `copy_object`: remote copy first, then invalidate the destination row. -/
def copy_object (rem : Remote) (st : List Row) (bucket objectName src : String) :
    Except String Unit × List Row :=
  match rem.copyResult bucket objectName src with
  | .error e => (.error e, st)
  | .ok r => (.ok r, delete_object_row st bucket objectName)

/-- Model of `set_object_tags`: remote tag-set first, then `_update_tags_row`. -/
def set_object_tags (cfg : Config) (rem : Remote) (now : Int) (st : List Row)
    (bucket key : String) (tags : Mapping) : Except String Unit × List Row :=
  match rem.setTagsResult bucket key tags with
  | .error e => (.error e, st)
  | .ok r => (.ok r, update_tags_row cfg st bucket key tags now)

/-- First-occurrence deduplication, mirroring the `seen_keys` set of the
merge loop (`seen` holds the keys already yielded or skipped). -/
def dedupKeep (seen : List String) : List String → List String
  | [] => []
  | k :: rest =>
    if seen.contains k then dedupKeep seen rest
    else k :: dedupKeep (k :: seen) rest

/-- A remote call that did not raise. -/
def exceptOk {ε α : Type} : Except ε α → Bool
  | .ok _ => true
  | .error _ => false

/-- The PRIMARY KEY (bucket, key) invariant of the `objects` table. -/
def nodupKeys (st : List Row) : Prop :=
  st.Pairwise (fun a b => ¬(a.bucket = b.bucket ∧ a.key = b.key))

instance (st : List Row) : Decidable (nodupKeys st) := by
  unfold nodupKeys
  infer_instance

/-! Shared concrete fixtures for witnesses and counterexamples. -/

/-- A configuration with the default TTL and no size cap. -/
def cfgNoCap : Config := { ttl := 3600, max_db_size_mb := 0, fp := fun _ => 0 }

/-- A remote whose listing is `[a, b, c]`, whose stats succeed, and whose
bulk delete reports the per-key failure of `k`. -/
def remoteAllOk : Remote :=
  { statResult := fun _ _ =>
      .ok { etag := some "e", size := some 1, lastModified := none, metadata := none }
    listKeys := fun _ _ => ["a", "b", "c"]
    removeResult := fun _ _ => .ok ()
    removeObjectsResult := fun _ _ => .ok ["k"]
    copyResult := fun _ _ _ => .ok ()
    setTagsResult := fun _ _ _ => .ok () }

/-- A remote all of whose calls raise. -/
def remoteDown : Remote :=
  { statResult := fun _ _ => .error "down"
    listKeys := fun _ _ => []
    removeResult := fun _ _ => .error "down"
    removeObjectsResult := fun _ _ => .error "down"
    copyResult := fun _ _ _ => .error "down"
    setTagsResult := fun _ _ _ => .error "down" }

/-- A row with a NULL `cached_at`. -/
def rowNullCA : Row :=
  { bucket := "b", key := "k", etag := none, size := none, lastModified := none,
    metadata := none, tags := none, cached_at := none }

/-- A row cached at epoch 0 (falsy in Python). -/
def rowZeroCA : Row := { rowNullCA with cached_at := some 0 }

/-- A row for key `k` cached at time 10. -/
def rowK : Row := { rowNullCA with cached_at := some 10 }

/-- A row for key `x` cached at time 90. -/
def rowX : Row := { rowNullCA with key := "x", cached_at := some 90 }

/-- A row for key `y` cached at time 90. -/
def rowY : Row := { rowNullCA with key := "y", cached_at := some 90 }

/-- A capped configuration whose footprint model charges 2 MB per row. -/
def cfgCap : Config := { ttl := 3600, max_db_size_mb := 1, fp := fun l => 2000000 * l.length }

/-! Helper lemmas about the store primitives. -/

theorem dumpsIfTruthy_of_ne_empty {m : Option Mapping} (h : m ≠ some []) :
    dumpsIfTruthy m = m := by
  match m with
  | none => rfl
  | some l =>
    have hl : l ≠ [] := fun he => h (by rw [he])
    simp [dumpsIfTruthy, hl]

theorem maybeEvict_nocap {cfg : Config} (h : cfg.max_db_size_mb = 0) (st : List Row) :
    maybeEvict cfg st = st := by
  simp [maybeEvict, h]

theorem get_row_of_write {st : List Row} {bucket key : String} {r : Row}
    (hr : rowMatches bucket key r = true) :
    get_row (delete_object_row st bucket key ++ [r]) bucket key = some r := by
  unfold get_row delete_object_row
  rw [List.find?_append]
  have h1 : (st.filter fun x => !(rowMatches bucket key x)).find? (rowMatches bucket key) = none := by
    rw [List.find?_eq_none]
    intro x hx
    have h2 := (List.mem_filter.mp hx).2
    simp only [Bool.not_eq_true'] at h2
    simp [h2]
  rw [h1]
  simp [List.find?, hr]

theorem get_row_fields {st : List Row} {bucket key : String} {r : Row}
    (h : get_row st bucket key = some r) : r.bucket = bucket ∧ r.key = key := by
  have h2 := List.find?_some h
  simp only [rowMatches, Bool.and_eq_true, beq_iff_eq] at h2
  exact h2

/-! Claim C1: the staleness policy. -/

/-- C1 counterexample: the claim's "a record with cachedAt = null is always
stale, for every ttl" fails, because `_is_row_stale` tests `ttl <= 0`
before `cached_at is None`: with `ttl = 0` a record whose `cached_at` is
NULL is reported fresh. -/
theorem c1_counterexample :
    rowNullCA.cached_at = none ∧ is_row_stale 0 100 (some rowNullCA) = false := by
  decide

/-- C1 (amended): for an existing record, `ttlSeconds <= 0` means never
stale (even when `cachedAt` is null); when `ttlSeconds > 0`, a null
`cachedAt` is always stale and otherwise the record is stale iff
`now - cachedAt > ttlSeconds`. -/
theorem c1_staleness_policy (ttl now : Int) (r : Row) :
    (ttl ≤ 0 → is_row_stale ttl now (some r) = false) ∧
    (0 < ttl → r.cached_at = none → is_row_stale ttl now (some r) = true) ∧
    (∀ c : Int, 0 < ttl → r.cached_at = some c →
      is_row_stale ttl now (some r) = decide (now - c > ttl)) := by
  refine ⟨?_, ?_, ?_⟩
  · intro h
    simp [is_row_stale, h]
  · intro h1 h2
    have h3 : ¬ ttl ≤ 0 := by omega
    simp [is_row_stale, h2, h3]
  · intro c h1 h2
    have h3 : ¬ ttl ≤ 0 := by omega
    simp [is_row_stale, h2, h3]

/-- C1 witness: the amended policy evaluated at ttl 0 on a zero-stamped
record, and at ttl 10 on a NULL-stamped and on a 90-stamped record. -/
theorem c1_staleness_policy_witness :
    is_row_stale 0 100 (some rowZeroCA) = false ∧
    is_row_stale 10 100 (some rowNullCA) = true ∧
    is_row_stale 10 100 (some rowX) = decide ((100 : Int) - 90 > 10) :=
  ⟨(c1_staleness_policy 0 100 rowZeroCA).1 (by decide),
   (c1_staleness_policy 10 100 rowNullCA).2.1 (by decide) rfl,
   (c1_staleness_policy 10 100 rowX).2.2 90 (by decide) rfl⟩

/-! Claim C10: agreement of the two staleness computations. -/

/-- C10 counterexample: the two staleness computations disagree on both
edge families the claim includes.  With `cached_at` NULL and `ttl = 0`,
`_is_row_stale` answers fresh (its `ttl <= 0` test comes first) while the
inline computation of `_rows_to_cached_objects` answers stale (its
`cached_at is None` test comes first).  With `cached_at = 0` (falsy in
Python) and `ttl = 1 < now = 5`, `_is_row_stale` answers stale while the
inline computation leaves `age = None` and answers fresh. -/
theorem c10_counterexample :
    (is_row_stale 0 100 (some rowNullCA) = false ∧
      (rows_to_cached_object 0 100 rowNullCA).stale = true) ∧
    (is_row_stale 1 5 (some rowZeroCA) = true ∧
      (rows_to_cached_object 1 5 rowZeroCA).stale = false) := by
  decide

/-- C10 (amended): the two staleness computations agree on every row whose
`cached_at` is a non-zero timestamp, and also on a zero timestamp whenever
`ttl <= 0`; the divergences are exactly `cached_at` NULL with `ttl <= 0`
and `cached_at = 0` with `0 < ttl < now`. -/
theorem c10_stale_agree (ttl now : Int) (r : Row) (c : Int) (hc : r.cached_at = some c) :
    (c ≠ 0 → is_row_stale ttl now (some r) = (rows_to_cached_object ttl now r).stale) ∧
    (ttl ≤ 0 → is_row_stale ttl now (some r) = (rows_to_cached_object ttl now r).stale) := by
  simp only [rows_to_cached_object, is_row_stale, inlineStale, pyAge, hc]
  constructor
  · intro hne
    by_cases h0 : ttl ≤ 0
    · have h1 : ¬ (0 : Int) < ttl := by omega
      simp [h0, h1]
    · have h1 : (0 : Int) < ttl := by omega
      simp [h0, h1, hne]
  · intro h0
    have h1 : ¬ (0 : Int) < ttl := by omega
    simp [h0, h1]

/-- C10 witness: agreement at a non-zero timestamp and at a zero timestamp
with non-positive ttl. -/
theorem c10_stale_agree_witness :
    is_row_stale 10 100 (some rowX) = (rows_to_cached_object 10 100 rowX).stale ∧
    is_row_stale 0 100 (some rowZeroCA) = (rows_to_cached_object 0 100 rowZeroCA).stale :=
  ⟨(c10_stale_agree 10 100 rowX 90 rfl).1 (by decide),
   (c10_stale_agree 0 100 rowZeroCA 0 rfl).2 (by decide)⟩

/-! Claim C6: CACHE_ONLY stat. -/

/-- C6: `stat_object` in CACHE_ONLY mode performs zero remote calls, leaves
the store untouched, and on a miss returns the sentinel `CachedObject` with
`cached=false` and `source='none'` instead of raising. -/
theorem c6_stat_cache_only (cfg : Config) (rem : Remote) (now : Int) (st : List Row)
    (bucket key : String) :
    (stat_object cfg rem now st bucket key CacheMode.CACHE_ONLY).2.2 = 0 ∧
    (stat_object cfg rem now st bucket key CacheMode.CACHE_ONLY).2.1 = st ∧
    (get_row st bucket key = none →
      (stat_object cfg rem now st bucket key CacheMode.CACHE_ONLY).1 =
        .ok (missCachedObject bucket key)) ∧
    (missCachedObject bucket key).cached = false ∧
    (missCachedObject bucket key).source = "none" := by
  unfold stat_object
  cases h : get_row st bucket key <;> simp [h, missCachedObject]

/-- C6 witness: a CACHE_ONLY stat of an unknown key on the empty store. -/
theorem c6_stat_cache_only_witness :
    (stat_object cfgNoCap remoteAllOk 0 [] "b" "k" CacheMode.CACHE_ONLY).2.2 = 0 ∧
    (stat_object cfgNoCap remoteAllOk 0 [] "b" "k" CacheMode.CACHE_ONLY).1 =
      .ok (missCachedObject "b" "k") :=
  ⟨(c6_stat_cache_only cfgNoCap remoteAllOk 0 [] "b" "k").1,
   (c6_stat_cache_only cfgNoCap remoteAllOk 0 [] "b" "k").2.2.1 rfl⟩

/-! Claim C7: metadata/tags round-trip. -/

/-- C7 counterexample: writing the empty metadata and tags mappings through
`_write_object_row` stores SQL NULL for both (Python truthiness:
`json.dumps(x) if x else None`), so the CACHE_ONLY read returns null
mappings, not the empty mappings that were written. -/
theorem c7_counterexample :
    get_row (write_object_row cfgNoCap [] "b" "k" none none none (some []) (some []) 5) "b" "k"
      = some { bucket := "b", key := "k", etag := none, size := none, lastModified := none,
               metadata := none, tags := none, cached_at := some 5 } ∧
    (stat_object cfgNoCap remoteAllOk 6
        (write_object_row cfgNoCap [] "b" "k" none none none (some []) (some []) 5)
        "b" "k" CacheMode.CACHE_ONLY).1
      = .ok { obj := some { bucket_name := "b", object_name := "k", last_modified := none,
                            etag := none, size := none, metadata := none },
              bucket := "b", key := "k", metadata := none, tags := none, cached := true,
              cached_at := some 5, age_seconds := some 1, stale := false, source := "cache" } := by
  decide

/-- C7 (amended): with no size cap, for every metadata and tags mapping
other than the empty mapping (null included), writing through
`_write_object_row` and reading back under CACHE_ONLY yields identical
mapping contents; the empty mapping is collapsed to null by the write
path's truthiness test. -/
theorem c7_roundtrip (cfg : Config) (rem : Remote) (st : List Row)
    (bucket key : String) (etag : Option String) (size : Option Int)
    (lastModified : Option String) (m t : Option Mapping) (now now2 : Int)
    (hcap : cfg.max_db_size_mb = 0) (hm : m ≠ some []) (ht : t ≠ some []) :
    (stat_object cfg rem now2
        (write_object_row cfg st bucket key etag size lastModified m t now)
        bucket key CacheMode.CACHE_ONLY).1
      = .ok (rows_to_cached_object cfg.ttl now2
          { bucket := bucket, key := key, etag := etag, size := size,
            lastModified := lastModified, metadata := m, tags := t, cached_at := some now }) ∧
    (rows_to_cached_object cfg.ttl now2
          { bucket := bucket, key := key, etag := etag, size := size,
            lastModified := lastModified, metadata := m, tags := t,
            cached_at := some now }).metadata = m ∧
    (rows_to_cached_object cfg.ttl now2
          { bucket := bucket, key := key, etag := etag, size := size,
            lastModified := lastModified, metadata := m, tags := t,
            cached_at := some now }).tags = t := by
  have hw : write_object_row cfg st bucket key etag size lastModified m t now
      = delete_object_row st bucket key ++
        [{ bucket := bucket, key := key, etag := etag, size := size,
           lastModified := lastModified, metadata := m, tags := t, cached_at := some now }] := by
    unfold write_object_row
    rw [maybeEvict_nocap hcap, dumpsIfTruthy_of_ne_empty hm, dumpsIfTruthy_of_ne_empty ht]
  have hg : get_row (write_object_row cfg st bucket key etag size lastModified m t now) bucket key
      = some { bucket := bucket, key := key, etag := etag, size := size,
               lastModified := lastModified, metadata := m, tags := t, cached_at := some now } := by
    rw [hw]
    exact get_row_of_write (by simp [rowMatches])
  refine ⟨?_, rfl, rfl⟩
  unfold stat_object
  simp [hg]

/-- C7 witness: a one-entry metadata mapping and a one-entry tags mapping
round-trip through the store unchanged. -/
theorem c7_roundtrip_witness :
    (stat_object cfgNoCap remoteAllOk 6
        (write_object_row cfgNoCap [] "b" "k" none none none
          (some [("ma", "1")]) (some [("ta", "2")]) 5)
        "b" "k" CacheMode.CACHE_ONLY).1
      = .ok (rows_to_cached_object cfgNoCap.ttl 6
          { bucket := "b", key := "k", etag := none, size := none,
            lastModified := none, metadata := some [("ma", "1")],
            tags := some [("ta", "2")], cached_at := some 5 }) ∧
    (rows_to_cached_object cfgNoCap.ttl 6
          { bucket := "b", key := "k", etag := none, size := none,
            lastModified := none, metadata := some [("ma", "1")],
            tags := some [("ta", "2")], cached_at := some 5 }).metadata = some [("ma", "1")] ∧
    (rows_to_cached_object cfgNoCap.ttl 6
          { bucket := "b", key := "k", etag := none, size := none,
            lastModified := none, metadata := some [("ma", "1")],
            tags := some [("ta", "2")], cached_at := some 5 }).tags = some [("ta", "2")] :=
  c7_roundtrip cfgNoCap remoteAllOk [] "b" "k" none none none
    (some [("ma", "1")]) (some [("ta", "2")]) 5 6 rfl (by decide) (by decide)

/-! Claim C8: set_object_tags as an upsert. -/

/-- C8 counterexample: on an empty store, `set_object_tags` succeeds
remotely yet leaves the store without any record for the key —
`_update_tags_row` issues a plain SQL UPDATE, which affects zero rows when
the key is absent, not an upsert. -/
theorem c8_counterexample :
    (set_object_tags cfgNoCap remoteAllOk 5 [] "b" "k" [("x", "y")]).1 = .ok () ∧
    (set_object_tags cfgNoCap remoteAllOk 5 [] "b" "k" [("x", "y")]).2 = [] ∧
    get_row (set_object_tags cfgNoCap remoteAllOk 5 [] "b" "k" [("x", "y")]).2 "b" "k" = none := by
  decide

/-- C8 (amended): with no size cap, after `set_object_tags` succeeds
remotely, an already-present record for the key has its tags replaced by
the given mapping and its `cachedAt` refreshed (all other fields kept);
when no record for the key existed beforehand the store is unchanged and no
record is created. -/
theorem c8_set_tags_update (cfg : Config) (rem : Remote) (now : Int) (st : List Row)
    (bucket key : String) (tags : Mapping)
    (hcap : cfg.max_db_size_mb = 0) (hok : rem.setTagsResult bucket key tags = .ok ()) :
    (set_object_tags cfg rem now st bucket key tags).1 = .ok () ∧
    (get_row st bucket key = none → (set_object_tags cfg rem now st bucket key tags).2 = st) ∧
    (∀ r : Row, get_row st bucket key = some r →
      get_row (set_object_tags cfg rem now st bucket key tags).2 bucket key
        = some { r with tags := some tags, cached_at := some now }) := by
  have hst : (set_object_tags cfg rem now st bucket key tags).2
      = st.map (fun r => if rowMatches bucket key r
          then { r with tags := some tags, cached_at := some now } else r) := by
    unfold set_object_tags
    rw [hok]
    unfold update_tags_row
    rw [maybeEvict_nocap hcap]
  refine ⟨?_, ?_, ?_⟩
  · unfold set_object_tags
    rw [hok]
  · intro hnone
    rw [hst]
    have hall := List.find?_eq_none.mp hnone
    have : ∀ r ∈ st, (if rowMatches bucket key r
        then { r with tags := some tags, cached_at := some now } else r) = id r := by
      intro r hr
      have := hall r hr
      simp only [Bool.not_eq_true] at this
      simp [this]
    rw [List.map_congr_left this, List.map_id]
  · intro r hr
    rw [hst]
    unfold get_row
    rw [List.find?_map]
    have hcomp : (rowMatches bucket key ∘ fun r => if rowMatches bucket key r
        then { r with tags := some tags, cached_at := some now } else r)
        = rowMatches bucket key := by
      funext x
      by_cases hx : rowMatches bucket key x = true
      · simp only [Function.comp, hx, if_pos]
        simp only [rowMatches] at hx ⊢
        exact hx
      · simp only [Bool.not_eq_true] at hx
        simp [Function.comp, hx]
    rw [hcomp]
    unfold get_row at hr
    rw [hr]
    have hm := List.find?_some hr
    simp [Option.map, hm]

/-- C8 witness: updating the tags of an existing record replaces its tags
and refreshes its timestamp. -/
theorem c8_set_tags_update_witness :
    get_row (set_object_tags cfgNoCap remoteAllOk 50 [rowK] "b" "k" [("x", "y")]).2 "b" "k"
      = some { rowK with tags := some [("x", "y")], cached_at := some 50 } :=
  (c8_set_tags_update cfgNoCap remoteAllOk 50 [rowK] "b" "k" [("x", "y")] rfl rfl).2.2
    rowK rfl

/-! Claim C3: mutation paths never touch the store on remote failure. -/

/-- C3 counterexample: `remove_objects` drains the remote error iterator —
here it reports that deleting `k` failed — and then deletes the cache row
of every requested key anyway, so the record of the failed key does not
stay unchanged. -/
theorem c3_counterexample :
    (remove_objects remoteAllOk [rowK] "b" ["k"]).1 = .ok ["k"] ∧
    get_row [rowK] "b" "k" = some rowK ∧
    get_row (remove_objects remoteAllOk [rowK] "b" ["k"]).2 "b" "k" = none := by
  decide

/-- C3 (amended): for all four mutation operations, an exception raised by
the remote call propagates unchanged and the store is left untouched; for
`remove_objects` this covers only exceptions while draining the iterator —
per-key errors reported in the result list do not prevent the cache rows
of those keys from being deleted. -/
theorem c3_mutation_error_propagation (cfg : Config) (rem : Remote) (now : Int)
    (st : List Row) (bucket key objectName src : String) (tags : Mapping)
    (deleteList : List String) (e : String) :
    (rem.removeResult bucket key = .error e →
      remove_object rem st bucket key = (.error e, st)) ∧
    (rem.removeObjectsResult bucket deleteList = .error e →
      remove_objects rem st bucket deleteList = (.error e, st)) ∧
    (rem.copyResult bucket objectName src = .error e →
      copy_object rem st bucket objectName src = (.error e, st)) ∧
    (rem.setTagsResult bucket key tags = .error e →
      set_object_tags cfg rem now st bucket key tags = (.error e, st)) := by
  refine ⟨?_, ?_, ?_, ?_⟩ <;> intro h <;>
    simp [remove_object, remove_objects, copy_object, set_object_tags, h]

/-- C3 witness: all four mutations against a raising remote propagate the
error and leave a one-row store unchanged. -/
theorem c3_mutation_error_propagation_witness :
    remove_object remoteDown [rowK] "b" "k" = (.error "down", [rowK]) ∧
    remove_objects remoteDown [rowK] "b" ["k"] = (.error "down", [rowK]) ∧
    copy_object remoteDown [rowK] "b" "k" "src" = (.error "down", [rowK]) ∧
    set_object_tags cfgNoCap remoteDown 5 [rowK] "b" "k" [("x", "y")] = (.error "down", [rowK]) :=
  ⟨(c3_mutation_error_propagation cfgNoCap remoteDown 5 [rowK] "b" "k" "k" "src"
      [("x", "y")] ["k"] "down").1 rfl,
   (c3_mutation_error_propagation cfgNoCap remoteDown 5 [rowK] "b" "k" "k" "src"
      [("x", "y")] ["k"] "down").2.1 rfl,
   (c3_mutation_error_propagation cfgNoCap remoteDown 5 [rowK] "b" "k" "k" "src"
      [("x", "y")] ["k"] "down").2.2.1 rfl,
   (c3_mutation_error_propagation cfgNoCap remoteDown 5 [rowK] "b" "k" "k" "src"
      [("x", "y")] ["k"] "down").2.2.2 rfl⟩

/-! Claim C4: degraded stat result on remote failure. -/

/-- C4: in any non-CACHE_ONLY mode, when the remote stat raises and the
guard did not already serve the record from the cache, an existing (possibly
stale) cached record is returned as a degraded result — `source='cache'`
with the row's stale flag — leaving the store untouched, and when no cached
record exists the failure propagates unchanged. -/
theorem c4_stat_degraded (cfg : Config) (rem : Remote) (now : Int) (st : List Row)
    (bucket key : String) (mode : CacheMode) (e : String)
    (hmode : mode ≠ CacheMode.CACHE_ONLY)
    (herr : rem.statResult bucket key = .error e) :
    (∀ r : Row, get_row st bucket key = some r → servesCached cfg now mode r = false →
      stat_object cfg rem now st bucket key mode
        = (.ok (rows_to_cached_object cfg.ttl now r), st, 1) ∧
      (rows_to_cached_object cfg.ttl now r).source = "cache" ∧
      (rows_to_cached_object cfg.ttl now r).stale = inlineStale cfg.ttl now r.cached_at) ∧
    (get_row st bucket key = none →
      stat_object cfg rem now st bucket key mode = (.error e, st, 1)) := by
  constructor
  · intro r hr hserve
    refine ⟨?_, rfl, rfl⟩
    unfold stat_object
    simp [hmode, hr, hserve, herr]
  · intro hr
    unfold stat_object
    simp [hmode, hr, herr]

/-- C4 witness: a BYPASS stat against a raising remote degrades to the
stale cached record, and on the empty store the failure propagates. -/
theorem c4_stat_degraded_witness :
    stat_object cfgNoCap remoteDown 5000 [rowK] "b" "k" CacheMode.BYPASS
      = (.ok (rows_to_cached_object cfgNoCap.ttl 5000 rowK), [rowK], 1) ∧
    stat_object cfgNoCap remoteDown 5000 [] "b" "k" CacheMode.BYPASS
      = (.error "down", [], 1) :=
  ⟨((c4_stat_degraded cfgNoCap remoteDown 5000 [rowK] "b" "k" CacheMode.BYPASS "down"
      (by decide) rfl).1 rowK rfl (by decide)).1,
   (c4_stat_degraded cfgNoCap remoteDown 5000 [] "b" "k" CacheMode.BYPASS "down"
      (by decide) rfl).2 rfl⟩

/-! Claim C5: BYPASS stat semantics. -/

theorem stat_object_cache_only_hit {cfg : Config} {rem : Remote} {now : Int}
    {st : List Row} {bucket key : String} {r : Row}
    (h : get_row st bucket key = some r) :
    stat_object cfg rem now st bucket key CacheMode.CACHE_ONLY
      = (.ok (rows_to_cached_object cfg.ttl now r), st, 0) := by
  unfold stat_object
  simp [h]

/-- C5: a BYPASS stat always issues exactly one remote call whatever the
remote's answer; on success (with no size cap, and remote metadata not the
empty mapping, which the write path would collapse to null) the result is
built from the remote value alone — the same for every store contents — the
fresh value is written back, and a subsequent CACHE_ONLY stat serves a
record carrying exactly the fields of the last BYPASS result. -/
theorem c5_stat_bypass (cfg : Config) (rem : Remote) (now now2 : Int) (st : List Row)
    (bucket key : String) (stat : Stat)
    (hcap : cfg.max_db_size_mb = 0)
    (hok : rem.statResult bucket key = .ok stat)
    (hmeta : stat.metadata ≠ some []) :
    (∀ (rem2 : Remote) (st2 : List Row),
      (stat_object cfg rem2 now st2 bucket key CacheMode.BYPASS).2.2 = 1) ∧
    (∀ st2 : List Row, (stat_object cfg rem now st2 bucket key CacheMode.BYPASS).1
        = .ok (freshCachedObject bucket key stat now)) ∧
    (get_row (stat_object cfg rem now st bucket key CacheMode.BYPASS).2.1 bucket key
        = some { bucket := bucket, key := key, etag := stat.etag, size := stat.size,
                 lastModified := stat.lastModified, metadata := stat.metadata,
                 tags := none, cached_at := some now }) ∧
    ((stat_object cfg rem now2
        (stat_object cfg rem now st bucket key CacheMode.BYPASS).2.1
        bucket key CacheMode.CACHE_ONLY).1
      = .ok (rows_to_cached_object cfg.ttl now2
          { bucket := bucket, key := key, etag := stat.etag, size := stat.size,
            lastModified := stat.lastModified, metadata := stat.metadata,
            tags := none, cached_at := some now })) ∧
    ((rows_to_cached_object cfg.ttl now2
          { bucket := bucket, key := key, etag := stat.etag, size := stat.size,
            lastModified := stat.lastModified, metadata := stat.metadata,
            tags := none, cached_at := some now }).obj
        = (freshCachedObject bucket key stat now).obj ∧
      (rows_to_cached_object cfg.ttl now2
          { bucket := bucket, key := key, etag := stat.etag, size := stat.size,
            lastModified := stat.lastModified, metadata := stat.metadata,
            tags := none, cached_at := some now }).metadata
        = (freshCachedObject bucket key stat now).metadata ∧
      (rows_to_cached_object cfg.ttl now2
          { bucket := bucket, key := key, etag := stat.etag, size := stat.size,
            lastModified := stat.lastModified, metadata := stat.metadata,
            tags := none, cached_at := some now }).tags
        = (freshCachedObject bucket key stat now).tags) := by
  have hbp : ∀ r : Row, servesCached cfg now CacheMode.BYPASS r = false := by
    intro r
    simp [servesCached]
  have hrun : ∀ st2 : List Row, stat_object cfg rem now st2 bucket key CacheMode.BYPASS
      = (.ok (freshCachedObject bucket key stat now),
         write_object_row cfg st2 bucket key stat.etag stat.size stat.lastModified
           stat.metadata none now, 1) := by
    intro st2
    unfold stat_object
    cases hrow : get_row st2 bucket key <;> simp [hrow, hbp, hok]
  have hwrite : write_object_row cfg st bucket key stat.etag stat.size stat.lastModified
      stat.metadata none now
      = delete_object_row st bucket key ++
        [{ bucket := bucket, key := key, etag := stat.etag, size := stat.size,
           lastModified := stat.lastModified, metadata := stat.metadata,
           tags := none, cached_at := some now }] := by
    unfold write_object_row
    rw [maybeEvict_nocap hcap, dumpsIfTruthy_of_ne_empty hmeta]
    rfl
  have hget : get_row (stat_object cfg rem now st bucket key CacheMode.BYPASS).2.1 bucket key
      = some { bucket := bucket, key := key, etag := stat.etag, size := stat.size,
               lastModified := stat.lastModified, metadata := stat.metadata,
               tags := none, cached_at := some now } := by
    rw [hrun st]
    simp only
    rw [hwrite]
    exact get_row_of_write (by simp [rowMatches])
  refine ⟨?_, ?_, hget, ?_, rfl, rfl, rfl⟩
  · intro rem2 st2
    unfold stat_object
    cases hrow : get_row st2 bucket key
    · cases hs : rem2.statResult bucket key <;> simp [hrow, hbp, hs]
    · cases hs : rem2.statResult bucket key <;> simp [hrow, hbp, hs]
  · intro st2
    rw [hrun st2]
  · rw [stat_object_cache_only_hit hget]

/-- C5 witness: a BYPASS stat over a one-row store issues one remote call,
returns the fresh remote value, and a CACHE_ONLY read of the produced store
serves exactly the written record. -/
theorem c5_stat_bypass_witness :
    (stat_object cfgNoCap remoteAllOk 7 [rowX] "b" "x" CacheMode.BYPASS).2.2 = 1 ∧
    (stat_object cfgNoCap remoteAllOk 7 [rowX] "b" "x" CacheMode.BYPASS).1
      = .ok (freshCachedObject "b" "x"
          { etag := some "e", size := some 1, lastModified := none, metadata := none } 7) ∧
    (stat_object cfgNoCap remoteAllOk 9
        (stat_object cfgNoCap remoteAllOk 7 [rowX] "b" "x" CacheMode.BYPASS).2.1
        "b" "x" CacheMode.CACHE_ONLY).1
      = .ok (rows_to_cached_object cfgNoCap.ttl 9
          { bucket := "b", key := "x", etag := some "e", size := some 1,
            lastModified := none, metadata := none, tags := none, cached_at := some 7 }) :=
  ⟨(c5_stat_bypass cfgNoCap remoteAllOk 7 9 [rowX] "b" "x"
      { etag := some "e", size := some 1, lastModified := none, metadata := none }
      rfl rfl (by decide)).1 remoteAllOk [rowX],
   (c5_stat_bypass cfgNoCap remoteAllOk 7 9 [rowX] "b" "x"
      { etag := some "e", size := some 1, lastModified := none, metadata := none }
      rfl rfl (by decide)).2.1 [rowX],
   (c5_stat_bypass cfgNoCap remoteAllOk 7 9 [rowX] "b" "x"
      { etag := some "e", size := some 1, lastModified := none, metadata := none }
      rfl rfl (by decide)).2.2.2.1⟩

/-! Claim C2: listing merge order. -/

theorem mergeLoop_keys (cfg : Config) (rem : Remote) (now : Int) (bucket : String)
    (n : Nat) (mode : CacheMode) :
    ∀ (keys : List String) (st : List Row) (seen : List String) (count calls : Nat),
      count < n →
      (∀ k ∈ keys, exceptOk (rem.statResult bucket k) = true) →
      ((mergeLoop cfg rem now bucket st seen count (some n) mode calls keys).1.map
          (fun c => c.key))
        = (dedupKeep seen keys).take (n - count) := by
  intro keys
  induction keys with
  | nil =>
    intro st seen count calls hcount hok
    simp [mergeLoop, dedupKeep]
  | cons k rest ih =>
    intro st seen count calls hcount hok
    have hokk : exceptOk (rem.statResult bucket k) = true := hok k (List.mem_cons_self k rest)
    have hokrest : ∀ q ∈ rest, exceptOk (rem.statResult bucket q) = true :=
      fun q hq => hok q (List.mem_cons_of_mem k hq)
    by_cases hseen : seen.contains k = true
    · simp only [mergeLoop, dedupKeep, hseen, if_true]
      exact ih st seen count calls hcount hokrest
    · have hseen2 : seen.contains k = false := by
        simp only [Bool.not_eq_true] at hseen
        exact hseen
      have htake : ∀ tail : List String,
          (k :: dedupKeep (k :: seen) tail).take (n - count)
            = k :: (dedupKeep (k :: seen) tail).take (n - (count + 1)) := by
        intro tail
        have harith : n - count = (n - (count + 1)) + 1 := by omega
        rw [harith, List.take_succ_cons]
      by_cases hlim : count + 1 ≥ n
      · have hone : n - count = 1 := by omega
        have hlim2 : limitReached (some n) (count + 1) = true := by
          simp [limitReached, hlim]
        simp only [mergeLoop, hseen2, Bool.false_eq_true, if_false, dedupKeep]
        cases hrow : get_row st bucket k with
        | some r =>
          have hkey : r.key = k := (get_row_fields hrow).2
          by_cases hserve : servesCached cfg now mode r = true
          · simp [hserve, hlim2, rows_to_cached_object, hkey, hone]
          · have hserve2 : servesCached cfg now mode r = false := by
              simp only [Bool.not_eq_true] at hserve
              exact hserve
            cases hstat : rem.statResult bucket k with
            | error e => simp [exceptOk, hstat] at hokk
            | ok stat => simp [hserve2, hstat, hlim2, freshCachedObject, hone]
        | none =>
          cases hstat : rem.statResult bucket k with
          | error e => simp [exceptOk, hstat] at hokk
          | ok stat => simp [hstat, hlim2, freshCachedObject, hone]
      · have hcount2 : count + 1 < n := by omega
        have hlim2 : limitReached (some n) (count + 1) = false := by
          simp [limitReached]
          omega
        simp only [mergeLoop, hseen2, Bool.false_eq_true, if_false, dedupKeep]
        cases hrow : get_row st bucket k with
        | some r =>
          have hkey : r.key = k := (get_row_fields hrow).2
          by_cases hserve : servesCached cfg now mode r = true
          · simp only [hserve, if_true, hlim2, Bool.false_eq_true, if_false, List.map_cons,
              rows_to_cached_object, hkey]
            rw [ih st (k :: seen) (count + 1) calls hcount2 hokrest, htake]
          · have hserve2 : servesCached cfg now mode r = false := by
              simp only [Bool.not_eq_true] at hserve
              exact hserve
            cases hstat : rem.statResult bucket k with
            | error e => simp [exceptOk, hstat] at hokk
            | ok stat =>
              simp only [hserve2, Bool.false_eq_true, if_false, hstat, hlim2, List.map_cons,
                freshCachedObject]
              rw [ih _ (k :: seen) (count + 1) (calls + 1) hcount2 hokrest, htake]
        | none =>
          cases hstat : rem.statResult bucket k with
          | error e => simp [exceptOk, hstat] at hokk
          | ok stat =>
            simp only [hstat, hlim2, Bool.false_eq_true, if_false, List.map_cons,
              freshCachedObject]
            rw [ih _ (k :: seen) (count + 1) (calls + 1) hcount2 hokrest, htake]

/-- C2 counterexample: with remote order `[a, b, c]` and a cache already
holding two fresh keys `x`, `y` under the prefix, `list_objects(limit=2)`
in DEFAULT mode takes the fast path and yields `[x, y]` from the store —
not `[a, b]` — so the result does depend on the cache state. -/
theorem c2_counterexample :
    remoteAllOk.listKeys "b" "" = ["a", "b", "c"] ∧
    ((list_objects cfgNoCap remoteAllOk 100 [rowX, rowY] "b" "" (some 2)
        CacheMode.DEFAULT).1.map (fun c => c.key)) = ["x", "y"] ∧
    (["x", "y"] : List String) ≠ ["a", "b"] := by
  decide

/-- C2 (amended): whenever the DEFAULT listing does not take the
cache fast path — the store holds fewer than `limit` keys under the prefix
— and every remote per-key stat succeeds, the yielded keys are exactly the
first `limit` first-occurrence-deduplicated keys of the remote listing, in
the remote's order; when the fast path fires the first `limit` cached keys
are served instead, which need not equal the remote's first `limit` keys. -/
theorem c2_merge_order (cfg : Config) (rem : Remote) (now : Int) (st : List Row)
    (bucket pfx : String) (n : Nat)
    (hcount : (list_cached_keys_for_pfx st bucket pfx).length < n)
    (hok : ∀ k ∈ rem.listKeys bucket pfx, exceptOk (rem.statResult bucket k) = true) :
    ((list_objects cfg rem now st bucket pfx (some n) CacheMode.DEFAULT).1.map
        (fun c => c.key))
      = (dedupKeep [] (rem.listKeys bucket pfx)).take n := by
  have hn : 0 < n := by omega
  unfold list_objects
  simp only [if_neg (by decide : ¬ CacheMode.DEFAULT = CacheMode.CACHE_ONLY)]
  simp only [and_true]
  rw [if_neg (show ¬ n ≤ (list_cached_keys_for_pfx st bucket pfx).length by omega)]
  have := mergeLoop_keys cfg rem now bucket n CacheMode.DEFAULT
    (rem.listKeys bucket pfx) st [] 0 0 hn hok
  simpa using this

/-- C2 witness: on the empty store (zero cached keys), with remote order
`[a, b, c]` and all stats succeeding, the DEFAULT listing with limit 2
yields the keys `[a, b]`. -/
theorem c2_merge_order_witness :
    (list_cached_keys_for_pfx [] "b" "").length < 2 ∧
    ((list_objects cfgNoCap remoteAllOk 100 [] "b" "" (some 2)
        CacheMode.DEFAULT).1.map (fun c => c.key))
      = (dedupKeep [] (remoteAllOk.listKeys "b" "")).take 2 :=
  ⟨by decide,
   c2_merge_order cfgNoCap remoteAllOk 100 [] "b" "" 2 (by decide) (by decide)⟩


/-! Claim C9: eviction. -/

theorem evictLoop_stop {cfg : Config} {st : List Row} (h : cfg.fp st ≤ limitBytes cfg) :
    evictLoop cfg st = st := by
  rw [evictLoop, if_pos h]

theorem evictLoop_nilbatch {cfg : Config} {st : List Row} (h2 : oldestBatch st = []) :
    evictLoop cfg st = st := by
  rw [evictLoop]
  split
  · rfl
  · split
    · rfl
    · next b bs heq =>
      rw [h2] at heq
      cases heq

theorem evictLoop_step {cfg : Config} {st : List Row} {b : Row} {bs : List Row}
    (h1 : ¬ cfg.fp st ≤ limitBytes cfg) (h2 : oldestBatch st = b :: bs) :
    evictLoop cfg st = evictLoop cfg (deleteBatch st (b :: bs)) := by
  rw [evictLoop, if_neg h1]
  split
  · next heq =>
    rw [h2] at heq
    cases heq
  · next b2 bs2 heq =>
    rw [h2] at heq
    injection heq with hb hbs
    rw [hb, hbs]

theorem nodupKeys_symm :
    Symmetric (fun a b : Row => ¬(a.bucket = b.bucket ∧ a.key = b.key)) :=
  fun _ _ h hc => h ⟨hc.1.symm, hc.2.symm⟩

theorem mem_of_mem_oldestBatch {st : List Row} {r : Row} (h : r ∈ oldestBatch st) : r ∈ st :=
  (List.perm_insertionSort rowLE st).mem_iff.mp (List.mem_of_mem_take h)

theorem deleteBatch_length_lt {st : List Row} {b : Row} (bs : List Row) (hb : b ∈ st) :
    (deleteBatch st (b :: bs)).length < st.length := by
  apply List.length_filter_lt_length_iff_exists.mpr
  refine ⟨b, hb, ?_⟩
  simp [rowMatches]

theorem mem_deleteBatch {st batch : List Row} {r : Row} :
    r ∈ deleteBatch st batch ↔
      r ∈ st ∧ (batch.any (fun q => rowMatches q.bucket q.key r)) = false := by
  simp [deleteBatch, List.mem_filter]

theorem evictLoop_invariants (cfg : Config) :
    ∀ (n : Nat) (st : List Row), st.length ≤ n → nodupKeys st →
      (evictLoop cfg st).Sublist st ∧
      (∀ d ∈ st, d ∉ evictLoop cfg st → ∀ s ∈ evictLoop cfg st, rowLE d s) ∧
      (cfg.fp (evictLoop cfg st) ≤ limitBytes cfg ∨ evictLoop cfg st = []) := by
  intro n
  induction n with
  | zero =>
    intro st hlen hnodup
    have hst : st = [] := List.length_eq_zero.mp (Nat.le_zero.mp hlen)
    subst hst
    rw [evictLoop_nilbatch (show oldestBatch [] = [] from rfl)]
    exact ⟨List.Sublist.refl _, fun d hd => absurd hd (List.not_mem_nil d), Or.inr rfl⟩
  | succ n ih =>
    intro st hlen hnodup
    by_cases hfp : cfg.fp st ≤ limitBytes cfg
    · rw [evictLoop_stop hfp]
      exact ⟨List.Sublist.refl st, fun d hd hnd _ _ => absurd hd hnd, Or.inl hfp⟩
    · cases hbatch : oldestBatch st with
      | nil =>
        have hlen0 : st.length = 0 := by
          have hc := congrArg List.length hbatch
          simp only [oldestBatch, List.length_take, List.length_nil] at hc
          have hs := (List.perm_insertionSort rowLE st).length_eq
          omega
        have hst : st = [] := List.length_eq_zero.mp hlen0
        subst hst
        rw [evictLoop_nilbatch (show oldestBatch [] = [] from rfl)]
        exact ⟨List.Sublist.refl _, fun d hd => absurd hd (List.not_mem_nil d), Or.inr rfl⟩
      | cons b bs =>
        rw [evictLoop_step hfp hbatch]
        have hb_st : b ∈ st := mem_of_mem_oldestBatch (hbatch ▸ List.mem_cons_self b bs)
        have hlt : (deleteBatch st (b :: bs)).length < st.length := deleteBatch_length_lt bs hb_st
        have hlen2 : (deleteBatch st (b :: bs)).length ≤ n := by omega
        have hnodup2 : nodupKeys (deleteBatch st (b :: bs)) :=
          List.Pairwise.sublist (List.filter_sublist st) hnodup
        obtain ⟨ihsub, ihold, ihstop⟩ := ih (deleteBatch st (b :: bs)) hlen2 hnodup2
        refine ⟨ihsub.trans (List.filter_sublist st), ?_, ihstop⟩
        intro d hd hnd s hs
        by_cases hdmem : d ∈ deleteBatch st (b :: bs)
        · exact ihold d hdmem hnd s hs
        · -- `d` was deleted in this round, so its key is one of the batch keys.
          have hpd : ((b :: bs).any (fun q => rowMatches q.bucket q.key d)) = true := by
            by_contra hcon
            simp only [Bool.not_eq_true] at hcon
            exact hdmem (mem_deleteBatch.mpr ⟨hd, hcon⟩)
          obtain ⟨q, hq, hqd⟩ := List.any_eq_true.mp hpd
          have hqd2 : d.bucket = q.bucket ∧ d.key = q.key := by
            simpa [rowMatches] using hqd
          have hq_st : q ∈ st := mem_of_mem_oldestBatch (hbatch ▸ hq)
          have hqd_eq : q = d := by
            by_contra hne
            exact (List.Pairwise.forall nodupKeys_symm hnodup hq_st hd hne)
              ⟨hqd2.1.symm, hqd2.2.symm⟩
          have hd_take : d ∈ (List.insertionSort rowLE st).take 100 := by
            have hmem : d ∈ oldestBatch st := by
              rw [hbatch]
              exact hqd_eq ▸ hq
            exact hmem
          -- `s` survived, so it sits in the dropped (no-older) part of the sorted order.
          have hs_del : s ∈ deleteBatch st (b :: bs) := ihsub.subset hs
          obtain ⟨hs_st, hps2⟩ := mem_deleteBatch.mp hs_del
          have hs_sorted : s ∈ (List.insertionSort rowLE st).take 100 ++
              (List.insertionSort rowLE st).drop 100 := by
            rw [List.take_append_drop]
            exact (List.perm_insertionSort rowLE st).mem_iff.mpr hs_st
          have hs_drop : s ∈ (List.insertionSort rowLE st).drop 100 := by
            cases List.mem_append.mp hs_sorted with
            | inl hs_take =>
              exfalso
              have hs_batch : s ∈ b :: bs := by
                rw [← hbatch]
                exact hs_take
              have hself : rowMatches s.bucket s.key s = true := by
                simp [rowMatches]
              have hany : ((b :: bs).any (fun q => rowMatches q.bucket q.key s)) = true :=
                List.any_eq_true.mpr ⟨s, hs_batch, hself⟩
              rw [hps2] at hany
              exact Bool.false_ne_true hany
            | inr hdrop => exact hdrop
          have hsorted : List.Pairwise rowLE ((List.insertionSort rowLE st).take 100 ++
              (List.insertionSort rowLE st).drop 100) := by
            rw [List.take_append_drop]
            exact List.sorted_insertionSort rowLE st
          exact (List.pairwise_append.mp hsorted).2.2 d hd_take s hs_drop

/-- C9: with a positive size cap configured, `_enforce_db_size_limit` never
touches the `buckets` table, only deletes object rows (the surviving rows
are a sublist of the original ones, each unchanged), deletes only globally
oldest-`cached_at` rows — every deleted row is no newer than every
surviving row — and stops exactly when the footprint is within the cap or
the store has become empty. -/
theorem c9_eviction (cfg : Config) (db : DBState)
    (hcap : 0 < cfg.max_db_size_mb) (hnodup : nodupKeys db.objects) :
    (enforce_db_size_limit cfg db).buckets = db.buckets ∧
    (enforce_db_size_limit cfg db).objects.Sublist db.objects ∧
    (∀ d ∈ db.objects, d ∉ (enforce_db_size_limit cfg db).objects →
      ∀ s ∈ (enforce_db_size_limit cfg db).objects, rowLE d s) ∧
    (cfg.fp (enforce_db_size_limit cfg db).objects ≤ limitBytes cfg ∨
      (enforce_db_size_limit cfg db).objects = []) := by
  obtain ⟨h1, h2, h3⟩ :=
    evictLoop_invariants cfg db.objects.length db.objects le_rfl hnodup
  exact ⟨rfl, h1, h2, h3⟩

/-- C9 witness: a capped store holding two distinct-key rows is evicted
down to the cap (here to emptiness) while the bucket list survives. -/
theorem c9_eviction_witness :
    (0 : Int) < cfgCap.max_db_size_mb ∧
    (enforce_db_size_limit cfgCap { buckets := ["b"], objects := [rowX, rowY] }).buckets
      = ["b"] ∧
    (enforce_db_size_limit cfgCap
      { buckets := ["b"], objects := [rowX, rowY] }).objects.Sublist [rowX, rowY] ∧
    (cfgCap.fp (enforce_db_size_limit cfgCap
        { buckets := ["b"], objects := [rowX, rowY] }).objects ≤ limitBytes cfgCap ∨
      (enforce_db_size_limit cfgCap { buckets := ["b"], objects := [rowX, rowY] }).objects
        = []) :=
  ⟨by decide,
   (c9_eviction cfgCap { buckets := ["b"], objects := [rowX, rowY] }
      (by decide) (by decide)).1,
   (c9_eviction cfgCap { buckets := ["b"], objects := [rowX, rowY] }
      (by decide) (by decide)).2.1,
   (c9_eviction cfgCap { buckets := ["b"], objects := [rowX, rowY] }
      (by decide) (by decide)).2.2.2⟩
